import Mathlib

/-
Verification of the cvxpy quasiconvex-analysis, canonicalization and
bisection-solve subsystem.

The repository source provides the canonicalizer maximum_canon
(src/cvxpy/reductions/eliminate_pwl/canonicalizers/maximum_canon.py) together
with the test suites exercising the curvature analyzer, the DQCP-to-DCP
reduction, the bisection driver and the compiled-problem cache.  The analyzer,
driver, reduction and cache implementations themselves are not part of the
excerpt, so they are modelled from the specification (spec.md sections 4.1
to 4.4, 6 and 7), faithful to the behavior the in-repository tests pin down.
-/

namespace CvxpyDqcp

/-- Modelled from the spec: expression-graph nodes (section 3).  Atoms carry an
operator tag and ordered children; variables carry a shape and optional proven
sign attributes (nonneg, nonpos); parameters are named placeholders whose value
is bound at solve time.  The wrap nodes nonneg_wrap and nonpos_wrap are the
sign-fact wrappers used by the canonicalizer (cvxpy.atoms.affine.wraps), which
are identity atoms that force a proven sign on their argument. -/
inductive Expr where
  | const (c : ℚ)
  | param (id : Nat)
  | var (id : Nat) (shape : List Nat) (nonneg : Bool) (nonpos : Bool)
  | add (a b : Expr)
  | neg (a : Expr)
  | mul (a b : Expr)
  | ceil (a : Expr)
  | floor (a : Expr)
  | signAtom (a : Expr)
  | sqrt (a : Expr)
  | sum (a : Expr)
  | sumSquares (a : Expr)
  | length (a : Expr)
  | nonneg_wrap (a : Expr)
  | nonpos_wrap (a : Expr)
deriving DecidableEq

/-- Modelled from the spec: the shape annotation of a node (tuple of
dimensions); scalar atoms such as sum and length have scalar shape, and
elementwise atoms propagate the shape of their argument. -/
def Expr.shape : Expr → List Nat
  | .const _ => []
  | .param _ => []
  | .var _ s _ _ => s
  | .add a _ => a.shape
  | .neg a => a.shape
  | .mul a _ => a.shape
  | .ceil a => a.shape
  | .floor a => a.shape
  | .signAtom a => a.shape
  | .sqrt a => a.shape
  | .sum _ => []
  | .sumSquares _ => []
  | .length _ => []
  | .nonneg_wrap a => a.shape
  | .nonpos_wrap a => a.shape

/-- Modelled from the spec: whether a node is scalar (used by the rule that the
sign atom and scalar sums are quasilinear only for univariate input). -/
def Expr.isScalar (e : Expr) : Bool := e.shape.isEmpty

/-- Modelled from the spec: the per-node analysis record of the curvature/sign
analyzer (section 4.1).  The raw fields record what each composition rule
grants beyond the weaker classes; the accessors below build in the inclusion
chain constant, affine, convex/concave, quasiconvex/quasiconcave. -/
structure CurvInfo where
  constB : Bool
  affB : Bool
  cvxB : Bool
  ccvB : Bool
  qcvxB : Bool
  qccvB : Bool
  nn : Bool
  np : Bool

def CurvInfo.isConst (i : CurvInfo) : Bool := i.constB

def CurvInfo.isAffine (i : CurvInfo) : Bool := i.constB || i.affB

def CurvInfo.isCvx (i : CurvInfo) : Bool := i.isAffine || i.cvxB

def CurvInfo.isCcv (i : CurvInfo) : Bool := i.isAffine || i.ccvB

def CurvInfo.isQcvx (i : CurvInfo) : Bool := i.isCvx || i.qcvxB

def CurvInfo.isQccv (i : CurvInfo) : Bool := i.isCcv || i.qccvB

/-- Modelled from the spec: the curvature/sign analyzer (section 4.1), a pure
bottom-up pass over the graph using per-atom monotonicity rules.  Composition:
a nondecreasing atom applied to a quasiconvex argument is quasiconvex and a
nonincreasing one flips the class; sums preserve quasi-curvature only when the
other summand is constant (or the argument is scalar, for the sum atom); a
product of two non-constant factors is quasiconcave when both are concave and
nonneg or both convex and nonpos, and quasiconvex when the factors have
opposite proven signs; the sign atom is quasilinear only for scalar input. -/
def info : Expr → CurvInfo
  | .const c => ⟨true, false, false, false, false, false, decide (0 ≤ c), decide (c ≤ 0)⟩
  | .param _ => ⟨true, false, false, false, false, false, false, false⟩
  | .var _ _ nn np => ⟨false, true, false, false, false, false, nn, np⟩
  | .add a b =>
      let i := info a
      let j := info b
      ⟨i.isConst && j.isConst, i.isAffine && j.isAffine,
       i.isCvx && j.isCvx, i.isCcv && j.isCcv,
       (i.isQcvx && j.isConst) || (i.isConst && j.isQcvx),
       (i.isQccv && j.isConst) || (i.isConst && j.isQccv),
       i.nn && j.nn, i.np && j.np⟩
  | .neg a =>
      let i := info a
      ⟨i.isConst, i.isAffine, i.isCcv, i.isCvx, i.isQccv, i.isQcvx, i.np, i.nn⟩
  | .mul a b =>
      let i := info a
      let j := info b
      ⟨i.isConst && j.isConst,
       (i.isConst && j.isAffine) || (i.isAffine && j.isConst),
       (i.isConst && i.nn && j.isCvx) || (i.isConst && i.np && j.isCcv) ||
         (j.isConst && j.nn && i.isCvx) || (j.isConst && j.np && i.isCcv),
       (i.isConst && i.nn && j.isCcv) || (i.isConst && i.np && j.isCvx) ||
         (j.isConst && j.nn && i.isCcv) || (j.isConst && j.np && i.isCvx),
       (i.isConst && i.nn && j.isQcvx) || (i.isConst && i.np && j.isQccv) ||
         (j.isConst && j.nn && i.isQcvx) || (j.isConst && j.np && i.isQccv) ||
         (i.isCcv && i.nn && j.isCvx && j.np) || (i.isCvx && i.np && j.isCcv && j.nn),
       (i.isConst && i.nn && j.isQccv) || (i.isConst && i.np && j.isQcvx) ||
         (j.isConst && j.nn && i.isQccv) || (j.isConst && j.np && i.isQcvx) ||
         (i.isCcv && i.nn && j.isCcv && j.nn) || (i.isCvx && i.np && j.isCvx && j.np),
       (i.nn && j.nn) || (i.np && j.np),
       (i.nn && j.np) || (i.np && j.nn)⟩
  | .ceil a =>
      let i := info a
      ⟨i.isConst, false, false, false, i.isQcvx, i.isQccv, i.nn, i.np⟩
  | .floor a =>
      let i := info a
      ⟨i.isConst, false, false, false, i.isQcvx, i.isQccv, i.nn, i.np⟩
  | .signAtom a =>
      let i := info a
      ⟨i.isConst, false, false, false,
       a.isScalar && i.isQcvx, a.isScalar && i.isQccv, i.nn, i.np⟩
  | .sqrt a =>
      let i := info a
      ⟨i.isConst, false, false, i.isCcv, i.isQcvx, i.isQccv, true, false⟩
  | .sum a =>
      let i := info a
      ⟨i.isConst, i.isAffine, i.isCvx, i.isCcv,
       a.isScalar && i.isQcvx, a.isScalar && i.isQccv, i.nn, i.np⟩
  | .sumSquares a =>
      let i := info a
      ⟨i.isConst, false,
       i.isAffine || (i.isCvx && i.nn) || (i.isCcv && i.np), false,
       false, false, true, false⟩
  | .length a =>
      let i := info a
      ⟨i.isConst, false, false, false, i.isAffine || (i.isCvx && i.nn), false, true, false⟩
  | .nonneg_wrap a =>
      let i := info a
      ⟨i.isConst, i.isAffine, i.isCvx, i.isCcv, i.isQcvx, i.isQccv, true, i.np⟩
  | .nonpos_wrap a =>
      let i := info a
      ⟨i.isConst, i.isAffine, i.isCvx, i.isCcv, i.isQcvx, i.isQccv, i.nn, true⟩

/-- Modelled from the spec: the analyzer predicate is_constant. -/
def Expr.is_constant (e : Expr) : Bool := (info e).isConst

/-- Modelled from the spec: the analyzer predicate is_affine. -/
def Expr.is_affine (e : Expr) : Bool := (info e).isAffine

/-- Modelled from the spec: the analyzer predicate is_convex. -/
def Expr.is_convex (e : Expr) : Bool := (info e).isCvx

/-- Modelled from the spec: the analyzer predicate is_concave. -/
def Expr.is_concave (e : Expr) : Bool := (info e).isCcv

/-- Modelled from the spec: the analyzer predicate is_quasiconvex. -/
def Expr.is_quasiconvex (e : Expr) : Bool := (info e).isQcvx

/-- Modelled from the spec: the analyzer predicate is_quasiconcave. -/
def Expr.is_quasiconcave (e : Expr) : Bool := (info e).isQccv

/-- Modelled from the spec: an atom is quasilinear iff it is simultaneously
quasiconvex and quasiconcave (section 4.1). -/
def Expr.is_quasilinear (e : Expr) : Bool := e.is_quasiconvex && e.is_quasiconcave

/-- Modelled from the spec: an expression is DQCP-compliant iff it is
quasiconvex or quasiconcave. -/
def Expr.is_dqcp (e : Expr) : Bool := e.is_quasiconvex || e.is_quasiconcave

/-- Modelled from the spec: the proven-nonnegative sign predicate. -/
def Expr.is_nonneg (e : Expr) : Bool := (info e).nn

/-- Modelled from the spec: the proven-nonpositive sign predicate. -/
def Expr.is_nonpos (e : Expr) : Bool := (info e).np

/-- Modelled from the spec: the curvature classification vocabulary
(section 3 data model and the glossary). -/
inductive Curvature where
  | constant
  | affine
  | convex
  | concave
  | quasilinear
  | quasiconvex
  | quasiconcave
  | unknown
deriving DecidableEq

/-- Modelled from the spec: the curvature tag of a node, the strongest class
the analyzer can certify, with unknown when no rule applies. -/
def Expr.curvature (e : Expr) : Curvature :=
  if e.is_constant then .constant
  else if e.is_affine then .affine
  else if e.is_convex then .convex
  else if e.is_concave then .concave
  else if e.is_quasilinear then .quasilinear
  else if e.is_quasiconvex then .quasiconvex
  else if e.is_quasiconcave then .quasiconcave
  else .unknown

/-- Modelled from the spec: a constraint is a relational operator between two
expressions (section 3); the inequality lhs ≤ rhs is the only form the claims
need, and a Python constraint a >= b is represented as the inequality b ≤ a. -/
inductive Constr where
  | le (lhs rhs : Expr)
deriving DecidableEq

/-- Modelled from the spec: a constraint lhs ≤ rhs follows the DQCP ruleset
iff the left side is quasiconvex and the right side quasiconcave
(section 4.1). -/
def Constr.is_dqcp : Constr → Bool
  | .le l r => l.is_quasiconvex && r.is_quasiconcave

/-- Modelled from the spec: a constraint lhs ≤ rhs is DCP iff the left side is
convex and the right side concave. -/
def Constr.is_dcp : Constr → Bool
  | .le l r => l.is_convex && r.is_concave

/-- Modelled from the spec: objective sense of a problem. -/
inductive Sense where
  | minimize
  | maximize
deriving DecidableEq

/-- Modelled from the spec: a problem is an objective plus an ordered list of
constraints (section 3). -/
structure Problem where
  sense : Sense
  objective : Expr
  constraints : List Constr

/-- Modelled from the spec: a problem is DQCP-compliant iff the objective is
quasiconvex (minimize) or quasiconcave (maximize) and every constraint follows
the DQCP constraint rules (section 4.1). -/
def Problem.is_dqcp (p : Problem) : Bool :=
  (match p.sense with
   | .minimize => p.objective.is_quasiconvex
   | .maximize => p.objective.is_quasiconcave)
  && p.constraints.all Constr.is_dqcp

/-- Modelled from the spec: a problem is DCP iff the objective is convex
(minimize) or concave (maximize) and every constraint is DCP. -/
def Problem.is_dcp (p : Problem) : Bool :=
  (match p.sense with
   | .minimize => p.objective.is_convex
   | .maximize => p.objective.is_concave)
  && p.constraints.all Constr.is_dcp

/-- Translated from the source file
src/cvxpy/reductions/eliminate_pwl/canonicalizers/maximum_canon.py.  The call
Variable(shape), which allocates a globally fresh variable id in the Python
runtime, is modelled by the explicit fresh-id argument; the Python constraint
t >= elem built by operator overloading is the inequality elem ≤ t. -/
def maximum_canon (expr : Expr) (args : List Expr) (fresh : Nat) : Expr × List Constr :=
  let shape := expr.shape
  let t0 : Expr := .var fresh shape false false
  let t1 : Expr := if expr.is_nonneg then .nonneg_wrap t0 else t0
  let t2 : Expr := if expr.is_nonpos then .nonpos_wrap t1 else t1
  (t2, args.map fun elem => Constr.le elem t2)

/-- Collected ids of the variables occurring in an expression. -/
def Expr.varIds : Expr → List Nat
  | .const _ => []
  | .param _ => []
  | .var i _ _ _ => [i]
  | .add a b => a.varIds ++ b.varIds
  | .neg a => a.varIds
  | .mul a b => a.varIds ++ b.varIds
  | .ceil a => a.varIds
  | .floor a => a.varIds
  | .signAtom a => a.varIds
  | .sqrt a => a.varIds
  | .sum a => a.varIds
  | .sumSquares a => a.varIds
  | .length a => a.varIds
  | .nonneg_wrap a => a.varIds
  | .nonpos_wrap a => a.varIds

/-- Collected ids of the parameters occurring in an expression. -/
def Expr.paramIds : Expr → List Nat
  | .const _ => []
  | .param i => [i]
  | .var _ _ _ _ => []
  | .add a b => a.paramIds ++ b.paramIds
  | .neg a => a.paramIds
  | .mul a b => a.paramIds ++ b.paramIds
  | .ceil a => a.paramIds
  | .floor a => a.paramIds
  | .signAtom a => a.paramIds
  | .sqrt a => a.paramIds
  | .sum a => a.paramIds
  | .sumSquares a => a.paramIds
  | .length a => a.paramIds
  | .nonneg_wrap a => a.paramIds
  | .nonpos_wrap a => a.paramIds

/-- All subexpression nodes of an expression, the node itself included. -/
def Expr.subnodes : Expr → List Expr
  | .const c => [.const c]
  | .param i => [.param i]
  | .var i s nn np => [.var i s nn np]
  | .add a b => .add a b :: (a.subnodes ++ b.subnodes)
  | .neg a => .neg a :: a.subnodes
  | .mul a b => .mul a b :: (a.subnodes ++ b.subnodes)
  | .ceil a => .ceil a :: a.subnodes
  | .floor a => .floor a :: a.subnodes
  | .signAtom a => .signAtom a :: a.subnodes
  | .sqrt a => .sqrt a :: a.subnodes
  | .sum a => .sum a :: a.subnodes
  | .sumSquares a => .sumSquares a :: a.subnodes
  | .length a => .length a :: a.subnodes
  | .nonneg_wrap a => .nonneg_wrap a :: a.subnodes
  | .nonpos_wrap a => .nonpos_wrap a :: a.subnodes

/-- Nodes whose curvature resolves to unknown: the analyzer can certify
neither quasiconvexity nor quasiconcavity. -/
def Expr.curvUnknown (e : Expr) : Bool := !e.is_quasiconvex && !e.is_quasiconcave

/-- Whether some node anywhere inside the expression has unknown curvature. -/
def Expr.hasUnknownNode (e : Expr) : Bool := e.subnodes.any Expr.curvUnknown

/-- Whether some node anywhere in the objective or a constraint of the problem
has unknown curvature. -/
def Problem.hasUnknownNode (p : Problem) : Bool :=
  p.objective.hasUnknownNode
  || p.constraints.any fun c =>
      match c with
      | .le l r => l.hasUnknownNode || r.hasUnknownNode

/-- Modelled from the spec: the status vocabulary returned by the external
solver and propagated through the result object (section 6). -/
inductive Status where
  | optimal
  | infeasible
  | infeasibleInaccurate
  | unbounded
deriving DecidableEq

/-- Modelled from the spec: the answer of one external convex solve at a fixed
threshold value: an optimal primal point, or a proof of infeasibility, exact
or inaccurate (section 6). -/
inductive SolverAnswer where
  | optimal (x : ℚ)
  | infeasible
  | infeasibleInaccurate
deriving DecidableEq

/-- Whether a solver answer reports a feasible point. -/
def SolverAnswer.isFeasible : SolverAnswer → Bool
  | .optimal _ => true
  | _ => false

/-- Modelled from the spec: the user-visible result of a qcp solve, a status
code plus the optimal threshold value and primal value when available
(section 6). -/
structure Solution where
  status : Status
  optVal : Option ℚ
  xVal : Option ℚ
deriving DecidableEq

/-- Modelled from the spec: the hard error raised when the bisection search
does not terminate (section 7, class 2). -/
structure SolverError where
  msg : String
deriving DecidableEq

/-- Message of the iteration-cap error, as pinned by the test
TestDqcp.test_psd_constraint_bug. -/
def maxItersMsg : String := "Max iters hit during bisection."

/-- Modelled from the spec: the NARROWING loop of the bisection driver
(section 4.3).  Each iteration performs exactly one external solve at the
interval midpoint; a feasible answer shrinks the interval from above and
replaces the stored best solution, an infeasible one raises the lower bound.
The loop converges when the interval width is at most the tolerance and
returns the best feasible threshold with its primal point; exhausting the
iteration cap without converging is the hard ITER_EXCEEDED error. -/
def bisectLoop (solver : ℚ → SolverAnswer) (eps : ℚ) :
    Nat → ℚ → ℚ → ℚ → ℚ → Except SolverError Solution
  | 0, low, high, bestT, bestX =>
      if high - low ≤ eps then .ok ⟨.optimal, some bestT, some bestX⟩
      else .error ⟨maxItersMsg⟩
  | n + 1, low, high, bestT, bestX =>
      if high - low ≤ eps then .ok ⟨.optimal, some bestT, some bestX⟩
      else
        match solver ((low + high) / 2) with
        | .optimal x => bisectLoop solver eps n low ((low + high) / 2) ((low + high) / 2) x
        | _ => bisectLoop solver eps n ((low + high) / 2) high bestT bestX

/-- Modelled from the spec: geometric upward expansion used by interval
seeding when the caller omits the upper bound (section 4.3): starting from a
seed the candidate doubles until a feasible value is observed, within a fixed
expansion budget. -/
def seedHigh (solver : ℚ → SolverAnswer) : Nat → ℚ → Option ℚ
  | 0, _ => none
  | n + 1, h => if (solver h).isFeasible then some h else seedHigh solver n (2 * h)

/-- Modelled from the spec: geometric downward expansion used by interval
seeding when the caller omits the lower bound (section 4.3): starting from a
seed the candidate doubles in magnitude until an infeasible value is observed,
within a fixed expansion budget. -/
def seedLow (solver : ℚ → SolverAnswer) : Nat → ℚ → Option ℚ
  | 0, _ => none
  | n + 1, l => if (solver l).isFeasible then seedLow solver n (2 * l) else some l

/-- Modelled from the spec: the bisection driver (section 4.3).  INIT resolves
missing bounds by geometric interval seeding (upward from 1, downward from
-1); the probe of the upper endpoint propagates a solver infeasibility status
as a normally returned status, never as an exception (section 7, class 3);
exhaustion of the downward expansion budget with every probe feasible is
reported as unbounded.  The NARROWING phase is bisectLoop. -/
def bisect (solver : ℚ → SolverAnswer) (low high : Option ℚ) (eps : ℚ)
    (maxIters seedFuel : Nat) : Except SolverError Solution :=
  match (match high with | some h => some h | none => seedHigh solver seedFuel 1) with
  | none => .ok ⟨.infeasible, none, none⟩
  | some h =>
    match solver h with
    | .infeasible => .ok ⟨.infeasible, none, none⟩
    | .infeasibleInaccurate => .ok ⟨.infeasibleInaccurate, none, none⟩
    | .optimal x0 =>
      match (match low with | some l => some l | none => seedLow solver seedFuel (-1)) with
      | none => .ok ⟨.unbounded, none, none⟩
      | some l => bisectLoop solver eps maxIters l h h x0

/-- Modelled from the spec: the error classes of a qcp solve (section 7): a
structural DQCP-compliance error raised before any canonicalization or solver
call, or a solver-level search-control error from the bisection driver. -/
inductive QcpError where
  | structuralError
  | solverError (msg : String)
deriving DecidableEq

/-- Modelled from the spec: the problem-solve entry point with qcp enabled
(section 6).  The DQCP compliance gate runs first and rejects non-compliant
problems as a structural error before the bisection driver is ever invoked;
otherwise the canonicalized problem (abstracted as the feasibility solver over
the threshold parameter) is handed to the bisection driver. -/
def solveQcp (solver : ℚ → SolverAnswer) (p : Problem) (low high : Option ℚ)
    (eps : ℚ) (maxIters seedFuel : Nat) : Except QcpError Solution :=
  if p.is_dqcp then
    (bisect solver low high eps maxIters seedFuel).mapError fun e => .solverError e.msg
  else
    .error .structuralError

/-- Modelled from the spec: the parameter-independent structure of a
parametrized quadratic program (section 4.4): the atom topology, shapes and
sign facts are summarized by the structural coefficient lists that
canonicalization consumes; Parameter values are deliberately not part of it. -/
structure QPStructure where
  quadCoeffs : List ℚ
  linCoeffs : List ℚ
deriving DecidableEq

/-- Modelled from the spec: a problem together with the current value of its
scalar Parameter; changing the value never changes the structure part
(section 3). -/
structure ParamProblem where
  struct : QPStructure
  paramValue : ℚ

/-- Modelled from the spec: the compiled parametrized program: numeric
templates that later solves instantiate at a concrete parameter value
(section 4.4). -/
structure Template where
  quadTemplate : List ℚ
  linTemplate : List ℚ
deriving DecidableEq

/-- Modelled from the spec: the numeric data handed to the external solver
after parameter values are substituted into the templates. -/
structure NumericData where
  quadPart : List ℚ
  linPart : List ℚ
deriving DecidableEq

/-- Modelled from the spec: canonicalization of the structural part into the
compiled templates; a pure function of the structure only (section 4.4). -/
def canonicalizeQP (s : QPStructure) : Template :=
  ⟨s.quadCoeffs.map (fun c => 2 * c), s.linCoeffs⟩

/-- Modelled from the spec: instantiation of the compiled templates at a
concrete parameter value (the quadratic part of the test objective scales with
the parameter gamma). -/
def evalTemplate (t : Template) (gamma : ℚ) : NumericData :=
  ⟨t.quadTemplate.map (fun c => gamma * c), t.linTemplate⟩

/-- Modelled from the spec: the compiled-problem cache entry, holding the
structural fingerprint it was compiled from together with the compiled
templates; the fingerprint excludes Parameter values (section 4.4). -/
structure CompileCache where
  fingerprint : QPStructure
  tmpl : Template
deriving DecidableEq

/-- Modelled from the spec: compile with memoization (section 4.4).  A cache
hit requires fingerprint equality with the structural part of the problem;
only then is the cached template reused without re-running canonicalization.
The returned flag records whether canonicalization ran. -/
def compileQP (p : ParamProblem) (cache : Option CompileCache) :
    Template × CompileCache × Bool :=
  match cache with
  | some c =>
      if c.fingerprint = p.struct then (c.tmpl, c, false)
      else
        let t := canonicalizeQP p.struct
        (t, ⟨p.struct, t⟩, true)
  | none =>
      let t := canonicalizeQP p.struct
      (t, ⟨p.struct, t⟩, true)

/-- Modelled from the spec: get_problem_data, returning the compiled numeric
data at the current parameter value together with the updated cache and the
flag recording whether canonicalization ran. -/
def getProblemData (p : ParamProblem) (cache : Option CompileCache) :
    NumericData × CompileCache × Bool :=
  let r := compileQP p cache
  (evalTemplate r.1 p.paramValue, r.2.1, r.2.2)

/-- Modelled from the spec: solve_with_params, a pure function of the compiled
templates and the parameter binding; the external solver is an opaque function
of the numeric data (sections 4.4 and 6). -/
def solveWithParams (extSolver : NumericData → ℚ) (t : Template) (gamma : ℚ) : ℚ :=
  extSolver (evalTemplate t gamma)

/-- Modelled from the spec: the sublevel-set canonicalization of a quasiconvex
expression against the scalar threshold t (section 4.2): the ceiling atom has
the epigraph form ceil(x) ≤ t iff x ≤ floor(t); expressions the rules already
certify convex are constrained against the threshold directly. -/
def sublevelConstrs (e : Expr) (t : Expr) : List Constr :=
  match e with
  | .ceil a => [Constr.le a (.floor t)]
  | e => [Constr.le e t]

/-- Modelled from the spec: the superlevel-set canonicalization of a
quasiconcave expression against the scalar threshold t (section 4.2), the
mirror of sublevelConstrs. -/
def superlevelConstrs (e : Expr) (t : Expr) : List Constr :=
  match e with
  | .floor a => [Constr.le (.ceil t) a]
  | e => [Constr.le t e]

/-- Modelled from the spec: the Dqcp2Dcp reduction (section 4.2): the
quasiconvex objective is replaced by a constant-zero objective plus the
sublevel (or superlevel) constraints of the old objective against one freshly
introduced scalar threshold Parameter, which the bisection driver later binds
to trial values; the original constraints are kept. -/
def dqcp2dcp (p : Problem) (freshParam : Nat) : Problem :=
  match p.sense with
  | .minimize =>
      ⟨.minimize, .const 0, sublevelConstrs p.objective (.param freshParam) ++ p.constraints⟩
  | .maximize =>
      ⟨.maximize, .const 0, superlevelConstrs p.objective (.param freshParam) ++ p.constraints⟩

/-- Parameter ids of a constraint. -/
def Constr.paramIds : Constr → List Nat
  | .le l r => l.paramIds ++ r.paramIds

/-- Deduplicated parameter ids of a problem (the Python parameters() call
returns each Parameter object once). -/
def Problem.parameters (p : Problem) : List Nat :=
  (p.objective.paramIds ++ p.constraints.flatMap Constr.paramIds).dedup

/-- The ceiling problem of the concrete scenario in the spec (section 8) and
the tests test_basic_with_interval, test_basic_without_interval and
test_basic_solve: minimize ceil(x) subject to 12 ≤ x and x ≤ 17, for the
scalar variable x with no sign attribute. -/
def ceilProblem : Problem :=
  ⟨.minimize, .ceil (.var 0 [] false false),
   [Constr.le (.const 12) (.var 0 [] false false),
    Constr.le (.var 0 [] false false) (.const 17)]⟩

/-- Feasibility of the canonicalized ceiling problem at threshold t: some x
with 12 ≤ x ≤ 17 satisfies x ≤ floor(t), which holds exactly when
12 ≤ floor(t). -/
def ceilFeasible (t : ℚ) : Bool := decide ((12 : ℤ) ≤ t.floor)

/-- External-solver model for the canonicalized ceiling problem: at a feasible
threshold it returns some feasible primal point, chosen by the selection
function sel; at an infeasible threshold it reports infeasibility. -/
def ceilSolver (sel : ℚ → ℚ) (t : ℚ) : SolverAnswer :=
  if ceilFeasible t then .optimal (sel t) else .infeasible

/-- Specification of an admissible solver selection for the canonicalized
ceiling problem: any point it returns at a feasible threshold t lies in the
feasible region 12 ≤ x ≤ 17, x ≤ floor(t). -/
def selSpec (sel : ℚ → ℚ) : Prop :=
  ∀ t : ℚ, ceilFeasible t = true →
    12 ≤ sel t ∧ sel t ≤ 17 ∧ sel t ≤ (t.floor : ℚ)

/-- The non-DQCP problem of TestDqcp.test_sign (issue 1828): minimize
sum_squares(ones(2) - x) subject to sum(sign(x)) ≤ 1 for a 2-vector variable,
whose constraint contains the multivariate sign node of unknown curvature. -/
def signProblem : Problem :=
  ⟨.minimize, .sumSquares (.add (.const 1) (.neg (.var 0 [2] false false))),
   [Constr.le (.sum (.signAtom (.var 0 [2] false false))) (.const 1)]⟩

/-- The non-DQCP problem of TestDqcp.test_tutorial_dqcp: maximize w * sqrt(w)
for a scalar variable w with no sign attribute, whose objective is a product
with an unknown-sign factor. -/
def tutorialProblem : Problem :=
  ⟨.maximize, .mul (.var 0 [] false false) (.sqrt (.var 0 [] false false)), []⟩

/-
Theorems.
-/

/-- Helper: a record certifying neither quasiconvexity nor quasiconcavity has
every raw curvature field false. -/
theorem CurvInfo.all_false {i : CurvInfo} (h1 : i.isQcvx = false) (h2 : i.isQccv = false) :
    i.constB = false ∧ i.affB = false ∧ i.cvxB = false ∧ i.ccvB = false
    ∧ i.qcvxB = false ∧ i.qccvB = false := by
  simp only [CurvInfo.isQcvx, CurvInfo.isQccv, CurvInfo.isCvx, CurvInfo.isCcv,
    CurvInfo.isAffine, CurvInfo.isConst, Bool.or_eq_false_iff] at h1 h2
  exact ⟨h1.1.1.1, h1.1.1.2, h1.1.2, h2.1.2, h1.2, h2.2⟩

/-- Helper: a node whose own curvature resolves to unknown is neither
quasiconvex nor quasiconcave. -/
theorem curvUnknown_spec (e : Expr) (h : e.curvUnknown = true) :
    e.is_quasiconvex = false ∧ e.is_quasiconcave = false := by
  simpa [Expr.curvUnknown, Bool.and_eq_true, Bool.not_eq_true'] using h

/-- Helper: unknown curvature poisons every ancestor: if any node inside an
expression has unknown curvature, the analyzer certifies the whole expression
neither quasiconvex nor quasiconcave. -/
theorem unknown_node_poisons (e : Expr) (h : e.hasUnknownNode = true) :
    e.is_quasiconvex = false ∧ e.is_quasiconcave = false := by
  induction e with
  | const c =>
      simp [Expr.hasUnknownNode, Expr.subnodes, Expr.curvUnknown, Expr.is_quasiconvex,
        Expr.is_quasiconcave, info, CurvInfo.isQcvx, CurvInfo.isCvx, CurvInfo.isAffine,
        CurvInfo.isConst, CurvInfo.isQccv, CurvInfo.isCcv] at h
  | param i =>
      simp [Expr.hasUnknownNode, Expr.subnodes, Expr.curvUnknown, Expr.is_quasiconvex,
        Expr.is_quasiconcave, info, CurvInfo.isQcvx, CurvInfo.isCvx, CurvInfo.isAffine,
        CurvInfo.isConst, CurvInfo.isQccv, CurvInfo.isCcv] at h
  | var i s nn np =>
      simp [Expr.hasUnknownNode, Expr.subnodes, Expr.curvUnknown, Expr.is_quasiconvex,
        Expr.is_quasiconcave, info, CurvInfo.isQcvx, CurvInfo.isCvx, CurvInfo.isAffine,
        CurvInfo.isConst, CurvInfo.isQccv, CurvInfo.isCcv] at h
  | add a b iha ihb =>
      simp only [Expr.hasUnknownNode, Expr.subnodes, List.any_cons, List.any_append,
        Bool.or_eq_true] at h
      rcases h with h | h | h
      · exact curvUnknown_spec _ h
      · obtain ⟨h1, h2⟩ := iha (by simpa [Expr.hasUnknownNode] using h)
        have h1i : (info a).isQcvx = false := h1
        have h2i : (info a).isQccv = false := h2
        obtain ⟨hc, ha2, hv, hcc, hq1, hq2⟩ := CurvInfo.all_false h1i h2i
        constructor <;>
          simp [Expr.is_quasiconvex, Expr.is_quasiconcave, info, CurvInfo.isQcvx,
            CurvInfo.isQccv, CurvInfo.isCvx, CurvInfo.isCcv, CurvInfo.isAffine,
            CurvInfo.isConst, h1i, h2i, hc, ha2, hv, hcc, hq1, hq2]
      · obtain ⟨h1, h2⟩ := ihb (by simpa [Expr.hasUnknownNode] using h)
        have h1i : (info b).isQcvx = false := h1
        have h2i : (info b).isQccv = false := h2
        obtain ⟨hc, ha2, hv, hcc, hq1, hq2⟩ := CurvInfo.all_false h1i h2i
        constructor <;>
          simp [Expr.is_quasiconvex, Expr.is_quasiconcave, info, CurvInfo.isQcvx,
            CurvInfo.isQccv, CurvInfo.isCvx, CurvInfo.isCcv, CurvInfo.isAffine,
            CurvInfo.isConst, h1i, h2i, hc, ha2, hv, hcc, hq1, hq2]
  | neg a iha =>
      simp only [Expr.hasUnknownNode, Expr.subnodes, List.any_cons, Bool.or_eq_true] at h
      rcases h with h | h
      · exact curvUnknown_spec _ h
      · obtain ⟨h1, h2⟩ := iha (by simpa [Expr.hasUnknownNode] using h)
        have h1i : (info a).isQcvx = false := h1
        have h2i : (info a).isQccv = false := h2
        obtain ⟨hc, ha2, hv, hcc, hq1, hq2⟩ := CurvInfo.all_false h1i h2i
        constructor <;>
          simp [Expr.is_quasiconvex, Expr.is_quasiconcave, info, CurvInfo.isQcvx,
            CurvInfo.isQccv, CurvInfo.isCvx, CurvInfo.isCcv, CurvInfo.isAffine,
            CurvInfo.isConst, h1i, h2i, hc, ha2, hv, hcc, hq1, hq2]
  | mul a b iha ihb =>
      simp only [Expr.hasUnknownNode, Expr.subnodes, List.any_cons, List.any_append,
        Bool.or_eq_true] at h
      rcases h with h | h | h
      · exact curvUnknown_spec _ h
      · obtain ⟨h1, h2⟩ := iha (by simpa [Expr.hasUnknownNode] using h)
        have h1i : (info a).isQcvx = false := h1
        have h2i : (info a).isQccv = false := h2
        obtain ⟨hc, ha2, hv, hcc, hq1, hq2⟩ := CurvInfo.all_false h1i h2i
        constructor <;>
          simp [Expr.is_quasiconvex, Expr.is_quasiconcave, info, CurvInfo.isQcvx,
            CurvInfo.isQccv, CurvInfo.isCvx, CurvInfo.isCcv, CurvInfo.isAffine,
            CurvInfo.isConst, h1i, h2i, hc, ha2, hv, hcc, hq1, hq2]
      · obtain ⟨h1, h2⟩ := ihb (by simpa [Expr.hasUnknownNode] using h)
        have h1i : (info b).isQcvx = false := h1
        have h2i : (info b).isQccv = false := h2
        obtain ⟨hc, ha2, hv, hcc, hq1, hq2⟩ := CurvInfo.all_false h1i h2i
        constructor <;>
          simp [Expr.is_quasiconvex, Expr.is_quasiconcave, info, CurvInfo.isQcvx,
            CurvInfo.isQccv, CurvInfo.isCvx, CurvInfo.isCcv, CurvInfo.isAffine,
            CurvInfo.isConst, h1i, h2i, hc, ha2, hv, hcc, hq1, hq2]
  | ceil a iha =>
      simp only [Expr.hasUnknownNode, Expr.subnodes, List.any_cons, Bool.or_eq_true] at h
      rcases h with h | h
      · exact curvUnknown_spec _ h
      · obtain ⟨h1, h2⟩ := iha (by simpa [Expr.hasUnknownNode] using h)
        have h1i : (info a).isQcvx = false := h1
        have h2i : (info a).isQccv = false := h2
        obtain ⟨hc, ha2, hv, hcc, hq1, hq2⟩ := CurvInfo.all_false h1i h2i
        constructor <;>
          simp [Expr.is_quasiconvex, Expr.is_quasiconcave, info, CurvInfo.isQcvx,
            CurvInfo.isQccv, CurvInfo.isCvx, CurvInfo.isCcv, CurvInfo.isAffine,
            CurvInfo.isConst, h1i, h2i, hc, ha2, hv, hcc, hq1, hq2]
  | floor a iha =>
      simp only [Expr.hasUnknownNode, Expr.subnodes, List.any_cons, Bool.or_eq_true] at h
      rcases h with h | h
      · exact curvUnknown_spec _ h
      · obtain ⟨h1, h2⟩ := iha (by simpa [Expr.hasUnknownNode] using h)
        have h1i : (info a).isQcvx = false := h1
        have h2i : (info a).isQccv = false := h2
        obtain ⟨hc, ha2, hv, hcc, hq1, hq2⟩ := CurvInfo.all_false h1i h2i
        constructor <;>
          simp [Expr.is_quasiconvex, Expr.is_quasiconcave, info, CurvInfo.isQcvx,
            CurvInfo.isQccv, CurvInfo.isCvx, CurvInfo.isCcv, CurvInfo.isAffine,
            CurvInfo.isConst, h1i, h2i, hc, ha2, hv, hcc, hq1, hq2]
  | signAtom a iha =>
      simp only [Expr.hasUnknownNode, Expr.subnodes, List.any_cons, Bool.or_eq_true] at h
      rcases h with h | h
      · exact curvUnknown_spec _ h
      · obtain ⟨h1, h2⟩ := iha (by simpa [Expr.hasUnknownNode] using h)
        have h1i : (info a).isQcvx = false := h1
        have h2i : (info a).isQccv = false := h2
        obtain ⟨hc, ha2, hv, hcc, hq1, hq2⟩ := CurvInfo.all_false h1i h2i
        constructor <;>
          simp [Expr.is_quasiconvex, Expr.is_quasiconcave, info, CurvInfo.isQcvx,
            CurvInfo.isQccv, CurvInfo.isCvx, CurvInfo.isCcv, CurvInfo.isAffine,
            CurvInfo.isConst, h1i, h2i, hc, ha2, hv, hcc, hq1, hq2]
  | sqrt a iha =>
      simp only [Expr.hasUnknownNode, Expr.subnodes, List.any_cons, Bool.or_eq_true] at h
      rcases h with h | h
      · exact curvUnknown_spec _ h
      · obtain ⟨h1, h2⟩ := iha (by simpa [Expr.hasUnknownNode] using h)
        have h1i : (info a).isQcvx = false := h1
        have h2i : (info a).isQccv = false := h2
        obtain ⟨hc, ha2, hv, hcc, hq1, hq2⟩ := CurvInfo.all_false h1i h2i
        constructor <;>
          simp [Expr.is_quasiconvex, Expr.is_quasiconcave, info, CurvInfo.isQcvx,
            CurvInfo.isQccv, CurvInfo.isCvx, CurvInfo.isCcv, CurvInfo.isAffine,
            CurvInfo.isConst, h1i, h2i, hc, ha2, hv, hcc, hq1, hq2]
  | sum a iha =>
      simp only [Expr.hasUnknownNode, Expr.subnodes, List.any_cons, Bool.or_eq_true] at h
      rcases h with h | h
      · exact curvUnknown_spec _ h
      · obtain ⟨h1, h2⟩ := iha (by simpa [Expr.hasUnknownNode] using h)
        have h1i : (info a).isQcvx = false := h1
        have h2i : (info a).isQccv = false := h2
        obtain ⟨hc, ha2, hv, hcc, hq1, hq2⟩ := CurvInfo.all_false h1i h2i
        constructor <;>
          simp [Expr.is_quasiconvex, Expr.is_quasiconcave, info, CurvInfo.isQcvx,
            CurvInfo.isQccv, CurvInfo.isCvx, CurvInfo.isCcv, CurvInfo.isAffine,
            CurvInfo.isConst, h1i, h2i, hc, ha2, hv, hcc, hq1, hq2]
  | sumSquares a iha =>
      simp only [Expr.hasUnknownNode, Expr.subnodes, List.any_cons, Bool.or_eq_true] at h
      rcases h with h | h
      · exact curvUnknown_spec _ h
      · obtain ⟨h1, h2⟩ := iha (by simpa [Expr.hasUnknownNode] using h)
        have h1i : (info a).isQcvx = false := h1
        have h2i : (info a).isQccv = false := h2
        obtain ⟨hc, ha2, hv, hcc, hq1, hq2⟩ := CurvInfo.all_false h1i h2i
        constructor <;>
          simp [Expr.is_quasiconvex, Expr.is_quasiconcave, info, CurvInfo.isQcvx,
            CurvInfo.isQccv, CurvInfo.isCvx, CurvInfo.isCcv, CurvInfo.isAffine,
            CurvInfo.isConst, h1i, h2i, hc, ha2, hv, hcc, hq1, hq2]
  | length a iha =>
      simp only [Expr.hasUnknownNode, Expr.subnodes, List.any_cons, Bool.or_eq_true] at h
      rcases h with h | h
      · exact curvUnknown_spec _ h
      · obtain ⟨h1, h2⟩ := iha (by simpa [Expr.hasUnknownNode] using h)
        have h1i : (info a).isQcvx = false := h1
        have h2i : (info a).isQccv = false := h2
        obtain ⟨hc, ha2, hv, hcc, hq1, hq2⟩ := CurvInfo.all_false h1i h2i
        constructor <;>
          simp [Expr.is_quasiconvex, Expr.is_quasiconcave, info, CurvInfo.isQcvx,
            CurvInfo.isQccv, CurvInfo.isCvx, CurvInfo.isCcv, CurvInfo.isAffine,
            CurvInfo.isConst, h1i, h2i, hc, ha2, hv, hcc, hq1, hq2]
  | nonneg_wrap a iha =>
      simp only [Expr.hasUnknownNode, Expr.subnodes, List.any_cons, Bool.or_eq_true] at h
      rcases h with h | h
      · exact curvUnknown_spec _ h
      · obtain ⟨h1, h2⟩ := iha (by simpa [Expr.hasUnknownNode] using h)
        have h1i : (info a).isQcvx = false := h1
        have h2i : (info a).isQccv = false := h2
        obtain ⟨hc, ha2, hv, hcc, hq1, hq2⟩ := CurvInfo.all_false h1i h2i
        constructor <;>
          simp [Expr.is_quasiconvex, Expr.is_quasiconcave, info, CurvInfo.isQcvx,
            CurvInfo.isQccv, CurvInfo.isCvx, CurvInfo.isCcv, CurvInfo.isAffine,
            CurvInfo.isConst, h1i, h2i, hc, ha2, hv, hcc, hq1, hq2]
  | nonpos_wrap a iha =>
      simp only [Expr.hasUnknownNode, Expr.subnodes, List.any_cons, Bool.or_eq_true] at h
      rcases h with h | h
      · exact curvUnknown_spec _ h
      · obtain ⟨h1, h2⟩ := iha (by simpa [Expr.hasUnknownNode] using h)
        have h1i : (info a).isQcvx = false := h1
        have h2i : (info a).isQccv = false := h2
        obtain ⟨hc, ha2, hv, hcc, hq1, hq2⟩ := CurvInfo.all_false h1i h2i
        constructor <;>
          simp [Expr.is_quasiconvex, Expr.is_quasiconcave, info, CurvInfo.isQcvx,
            CurvInfo.isQccv, CurvInfo.isCvx, CurvInfo.isCcv, CurvInfo.isAffine,
            CurvInfo.isConst, h1i, h2i, hc, ha2, hv, hcc, hq1, hq2]

/-- C1: for every expression of the max family with argument list args,
canonicalization (maximum_canon) returns a fresh auxiliary Variable t whose
shape equals the shape of the original expression, together with exactly the
list of constraints t ≥ child for every child in args (represented as
child ≤ t), one constraint per argument, in argument order; given that the
supplied id is unused, the variable underlying t occurs nowhere in the
original expression or its arguments. -/
theorem maximum_canon_fresh_var_ordered_constraints
    (expr : Expr) (args : List Expr) (fresh : Nat)
    (hfresh : fresh ∉ expr.varIds ∧ ∀ a ∈ args, fresh ∉ a.varIds) :
    (maximum_canon expr args fresh).1.shape = expr.shape
    ∧ (maximum_canon expr args fresh).2
        = args.map (fun child => Constr.le child (maximum_canon expr args fresh).1)
    ∧ ((maximum_canon expr args fresh).2).length = args.length
    ∧ (maximum_canon expr args fresh).1.varIds = [fresh]
    ∧ ∀ i ∈ (maximum_canon expr args fresh).1.varIds,
        i ∉ expr.varIds ∧ ∀ a ∈ args, i ∉ a.varIds := by
  obtain ⟨hf1, hf2⟩ := hfresh
  by_cases h1 : expr.is_nonneg = true <;> by_cases h2 : expr.is_nonpos = true <;>
    simp [maximum_canon, h1, h2, Expr.shape, Expr.varIds, hf1, hf2] <;>
    exact hf2

/-- Witness for C1 at a concrete input: the nonnegative expression
sqrt(x0) canonicalized against the arguments [x0, x1] with the fresh id 2. -/
theorem maximum_canon_fresh_var_ordered_constraints_witness :
    (maximum_canon (.sqrt (.var 0 [] false false))
        [.var 0 [] false false, .var 1 [] false false] 2).1.shape
      = (Expr.sqrt (.var 0 [] false false)).shape
    ∧ (maximum_canon (.sqrt (.var 0 [] false false))
        [.var 0 [] false false, .var 1 [] false false] 2).2
      = [Expr.var 0 [] false false, Expr.var 1 [] false false].map
          (fun child => Constr.le child
            (maximum_canon (.sqrt (.var 0 [] false false))
              [.var 0 [] false false, .var 1 [] false false] 2).1)
    ∧ ((maximum_canon (.sqrt (.var 0 [] false false))
        [.var 0 [] false false, .var 1 [] false false] 2).2).length = 2
    ∧ (maximum_canon (.sqrt (.var 0 [] false false))
        [.var 0 [] false false, .var 1 [] false false] 2).1.varIds = [2]
    ∧ ∀ i ∈ (maximum_canon (.sqrt (.var 0 [] false false))
        [.var 0 [] false false, .var 1 [] false false] 2).1.varIds,
        i ∉ (Expr.sqrt (.var 0 [] false false)).varIds
        ∧ ∀ a ∈ [Expr.var 0 [] false false, Expr.var 1 [] false false], i ∉ a.varIds :=
  maximum_canon_fresh_var_ordered_constraints
    (.sqrt (.var 0 [] false false))
    [.var 0 [] false false, .var 1 [] false false] 2 (by decide)

/-- C3: for every call maximum_canon(expr, args), if the analyzer has proven
expr nonnegative the returned auxiliary variable is wrapped with nonneg_wrap,
and if proven nonpositive it is wrapped with nonpos_wrap, so the auxiliary
variable carries the same proven sign as the original expression for
downstream curvature analysis. -/
theorem maximum_canon_sign_wrap (expr : Expr) (args : List Expr) (fresh : Nat) :
    (expr.is_nonneg = true →
      (∃ u, (maximum_canon expr args fresh).1 = .nonneg_wrap u
          ∨ (maximum_canon expr args fresh).1 = .nonpos_wrap (.nonneg_wrap u))
      ∧ (maximum_canon expr args fresh).1.is_nonneg = true)
    ∧ (expr.is_nonpos = true →
      (∃ u, (maximum_canon expr args fresh).1 = .nonpos_wrap u)
      ∧ (maximum_canon expr args fresh).1.is_nonpos = true) := by
  by_cases h1 : (info expr).nn = true <;> by_cases h2 : (info expr).np = true
  · have hfst : (maximum_canon expr args fresh).1
        = .nonpos_wrap (.nonneg_wrap (.var fresh expr.shape false false)) := by
      simp [maximum_canon, Expr.is_nonneg, Expr.is_nonpos, h1, h2]
    constructor
    · intro hx
      exact ⟨⟨_, Or.inr hfst⟩, by rw [hfst]; rfl⟩
    · intro hx
      exact ⟨⟨_, hfst⟩, by rw [hfst]; rfl⟩
  · have hfst : (maximum_canon expr args fresh).1
        = .nonneg_wrap (.var fresh expr.shape false false) := by
      simp [maximum_canon, Expr.is_nonneg, Expr.is_nonpos, h1, h2]
    constructor
    · intro hx
      exact ⟨⟨_, Or.inl hfst⟩, by rw [hfst]; rfl⟩
    · intro hx
      exact absurd hx h2
  · have hfst : (maximum_canon expr args fresh).1
        = .nonpos_wrap (.var fresh expr.shape false false) := by
      simp [maximum_canon, Expr.is_nonneg, Expr.is_nonpos, h1, h2]
    constructor
    · intro hx
      exact absurd hx h1
    · intro hx
      exact ⟨⟨_, hfst⟩, by rw [hfst]; rfl⟩
  · constructor
    · intro hx
      exact absurd hx h1
    · intro hx
      exact absurd hx h2

/-- Witness for C3 at a concrete input: the constant zero expression is proven
both nonnegative and nonpositive, so both wraps are applied and the returned
variable carries both sign facts. -/
theorem maximum_canon_sign_wrap_witness :
    ((∃ u, (maximum_canon (.const 0) [] 0).1 = .nonneg_wrap u
        ∨ (maximum_canon (.const 0) [] 0).1 = .nonpos_wrap (.nonneg_wrap u))
      ∧ (maximum_canon (.const 0) [] 0).1.is_nonneg = true)
    ∧ (∃ u, (maximum_canon (.const 0) [] 0).1 = .nonpos_wrap u)
      ∧ (maximum_canon (.const 0) [] 0).1.is_nonpos = true := by
  have h := maximum_canon_sign_wrap (.const 0) [] 0
  exact ⟨h.1 (by decide), h.2 (by decide)⟩

/-- C2: for every problem containing a node of unknown curvature anywhere in
the objective or a constraint, is_dqcp is false and a qcp solve rejects the
problem as a structural error before any canonicalization or solver call,
never reaching the bisection driver. -/
theorem unknown_curvature_rejected_structurally
    (p : Problem) (solver : ℚ → SolverAnswer) (low high : Option ℚ) (eps : ℚ)
    (maxIters seedFuel : Nat) (h : p.hasUnknownNode = true) :
    p.is_dqcp = false
    ∧ solveQcp solver p low high eps maxIters seedFuel = .error .structuralError := by
  have hdq : p.is_dqcp = false := by
    have h2 : p.objective.hasUnknownNode = true
        ∨ ∃ c ∈ p.constraints, Constr.is_dqcp c = false := by
      simp only [Problem.hasUnknownNode, Bool.or_eq_true, List.any_eq_true] at h
      rcases h with h | ⟨c, hc, hcu⟩
      · exact Or.inl h
      · refine Or.inr ⟨c, hc, ?_⟩
        cases c with
        | le l r =>
          simp only [Bool.or_eq_true] at hcu
          rcases hcu with hl | hr
          · simp [Constr.is_dqcp, (unknown_node_poisons l hl).1]
          · simp [Constr.is_dqcp, (unknown_node_poisons r hr).2]
    rcases h2 with ho | ⟨c, hc, hcd⟩
    · obtain ⟨hq1, hq2⟩ := unknown_node_poisons _ ho
      cases hs : p.sense <;> simp [Problem.is_dqcp, hs, hq1, hq2]
    · have : p.constraints.all Constr.is_dqcp = false := by
        rw [← Bool.not_eq_true, List.all_eq_true]
        push_neg
        exact ⟨c, hc, by simp [hcd]⟩
      simp [Problem.is_dqcp, this]
  exact ⟨hdq, by simp [solveQcp, hdq]⟩

/-- Witness for C2 at the two concrete non-DQCP problems of the test suite:
minimize sum_squares(1 - x) subject to sum(sign(x)) ≤ 1 for a 2-vector x, and
maximize w * sqrt(w) for an unknown-sign scalar w. -/
theorem unknown_curvature_rejected_structurally_witness :
    (signProblem.is_dqcp = false
      ∧ solveQcp (fun _ => .infeasible) signProblem none none 1 10 10
          = .error .structuralError)
    ∧ (tutorialProblem.is_dqcp = false
      ∧ solveQcp (fun _ => .infeasible) tutorialProblem none none 1 10 10
          = .error .structuralError) :=
  ⟨unknown_curvature_rejected_structurally signProblem (fun _ => .infeasible)
      none none 1 10 10 (by decide),
   unknown_curvature_rejected_structurally tutorialProblem (fun _ => .infeasible)
      none none 1 10 10 (by decide)⟩

/-- C6: for every product of two variables, when both factors are known
nonnegative or both known nonpositive the product is quasiconcave and not
quasiconvex; with opposite known signs it is quasiconvex and not quasiconcave;
and when a factor has unknown sign the curvature is undetermined (unknown) and
the expression is not DQCP-compliant. -/
theorem mul_of_variables_sign_curvature (i j : Nat) (s1 s2 : List Nat) :
    ((Expr.mul (.var i s1 true false) (.var j s2 true false)).is_quasiconcave = true
      ∧ (Expr.mul (.var i s1 true false) (.var j s2 true false)).is_quasiconvex = false)
    ∧ ((Expr.mul (.var i s1 false true) (.var j s2 false true)).is_quasiconcave = true
      ∧ (Expr.mul (.var i s1 false true) (.var j s2 false true)).is_quasiconvex = false)
    ∧ ((Expr.mul (.var i s1 true false) (.var j s2 false true)).is_quasiconvex = true
      ∧ (Expr.mul (.var i s1 true false) (.var j s2 false true)).is_quasiconcave = false)
    ∧ ((Expr.mul (.var i s1 false true) (.var j s2 true false)).is_quasiconvex = true
      ∧ (Expr.mul (.var i s1 false true) (.var j s2 true false)).is_quasiconcave = false)
    ∧ ∀ nn np : Bool,
        (Expr.mul (.var i s1 false false) (.var j s2 nn np)).curvature = .unknown
        ∧ (Expr.mul (.var i s1 false false) (.var j s2 nn np)).is_dqcp = false
        ∧ (Expr.mul (.var i s1 nn np) (.var j s2 false false)).curvature = .unknown
        ∧ (Expr.mul (.var i s1 nn np) (.var j s2 false false)).is_dqcp = false := by
  refine ⟨⟨rfl, rfl⟩, ⟨rfl, rfl⟩, ⟨rfl, rfl⟩, ⟨rfl, rfl⟩, ?_⟩
  intro nn np
  cases nn <;> cases np <;> exact ⟨rfl, rfl, rfl, rfl⟩

/-- C7: the analyzer classifies an expression as quasilinear iff it is
simultaneously quasiconvex and quasiconcave, and the rounding atoms ceil and
floor applied to a variable are quasiconvex and quasiconcave with curvature
tag QUASILINEAR while being neither convex nor concave. -/
theorem quasilinear_iff_and_rounding_atoms :
    (∀ e : Expr, e.is_quasilinear = (e.is_quasiconvex && e.is_quasiconcave))
    ∧ ∀ (i : Nat) (s : List Nat),
        (Expr.ceil (.var i s false false)).is_quasiconvex = true
        ∧ (Expr.ceil (.var i s false false)).is_quasiconcave = true
        ∧ (Expr.ceil (.var i s false false)).is_convex = false
        ∧ (Expr.ceil (.var i s false false)).is_concave = false
        ∧ (Expr.ceil (.var i s false false)).curvature = .quasilinear
        ∧ (Expr.ceil (.var i s false false)).is_quasilinear = true
        ∧ (Expr.floor (.var i s false false)).is_quasiconvex = true
        ∧ (Expr.floor (.var i s false false)).is_quasiconcave = true
        ∧ (Expr.floor (.var i s false false)).is_convex = false
        ∧ (Expr.floor (.var i s false false)).is_concave = false
        ∧ (Expr.floor (.var i s false false)).curvature = .quasilinear
        ∧ (Expr.floor (.var i s false false)).is_quasilinear = true := by
  refine ⟨fun e => rfl, fun i s => ?_⟩
  exact ⟨rfl, rfl, rfl, rfl, rfl, rfl, rfl, rfl, rfl, rfl, rfl, rfl⟩

/-- C10: applying the Dqcp2Dcp reduction to the problem minimize ceil(x)
subject to 12 ≤ x ≤ 17 yields a reduced problem that is DCP-compliant and
contains exactly one Parameter, the scalar bisection threshold. -/
theorem dqcp2dcp_ceil_problem_dcp_one_param :
    ceilProblem.is_dqcp = true
    ∧ (dqcp2dcp ceilProblem 0).is_dcp = true
    ∧ (dqcp2dcp ceilProblem 0).parameters = [0]
    ∧ ((dqcp2dcp ceilProblem 0).parameters).length = 1 := by
  decide

/-- C9: compiling once and re-solving through the cached compiled structure at
a new Parameter value yields the same compiled numeric data as compiling from
scratch at that value (structural fingerprint equality, parameter values
excluded from the fingerprint) and the same solution, without re-triggering
canonicalization; compiling the unchanged problem a second time reuses the
cache and returns identical compiled structure. -/
theorem compile_cache_parameter_reuse (s : QPStructure) (gOld gNew : ℚ)
    (extSolver : NumericData → ℚ) :
    (getProblemData ⟨s, gNew⟩ (some (getProblemData ⟨s, gOld⟩ none).2.1)).1
        = (getProblemData ⟨s, gNew⟩ none).1
    ∧ (getProblemData ⟨s, gNew⟩ (some (getProblemData ⟨s, gOld⟩ none).2.1)).2.2 = false
    ∧ (getProblemData ⟨s, gOld⟩ none).2.1.fingerprint
        = (getProblemData ⟨s, gNew⟩ none).2.1.fingerprint
    ∧ extSolver (getProblemData ⟨s, gNew⟩ (some (getProblemData ⟨s, gOld⟩ none).2.1)).1
        = extSolver (getProblemData ⟨s, gNew⟩ none).1
    ∧ (getProblemData ⟨s, gOld⟩ (some (getProblemData ⟨s, gOld⟩ none).2.1)).1
        = (getProblemData ⟨s, gOld⟩ none).1
    ∧ (getProblemData ⟨s, gOld⟩ (some (getProblemData ⟨s, gOld⟩ none).2.1)).2.2 = false
    ∧ solveWithParams extSolver
        (compileQP ⟨s, gNew⟩ (some (getProblemData ⟨s, gOld⟩ none).2.1)).1 gNew
        = solveWithParams extSolver (canonicalizeQP s) gNew := by
  simp [getProblemData, compileQP, solveWithParams]

/-- Helper: the bisection loop exits with the iteration-cap error exactly when
the interval cannot shrink below the tolerance within the allotted number of
halvings. -/
theorem bisectLoop_iter_exceeded (solver : ℚ → SolverAnswer) (eps : ℚ) :
    ∀ (n : Nat) (low high bT bX : ℚ), 0 ≤ eps → eps * 2 ^ n < high - low →
      bisectLoop solver eps n low high bT bX = .error ⟨maxItersMsg⟩ := by
  intro n
  induction n with
  | zero =>
    intro low high bT bX heps hw
    have hne : ¬ (high - low ≤ eps) := by
      simp only [pow_zero, mul_one] at hw
      linarith
    simp only [bisectLoop, if_neg hne]
  | succ n ih =>
    intro low high bT bX heps hw
    have h1 : (1:ℚ) ≤ 2 ^ (n + 1) := one_le_pow₀ one_le_two
    have hne : ¬ (high - low ≤ eps) := by
      have : eps ≤ eps * 2 ^ (n + 1) := le_mul_of_one_le_right heps h1
      linarith
    have hsucc : eps * 2 ^ (n + 1) = eps * 2 ^ n * 2 := by ring
    simp only [bisectLoop, if_neg hne]
    cases hs : solver ((low + high) / 2) with
    | optimal x =>
      exact ih low ((low + high) / 2) ((low + high) / 2) x heps (by rw [hsucc] at hw; linarith)
    | infeasible =>
      exact ih ((low + high) / 2) high bT bX heps (by rw [hsucc] at hw; linarith)
    | infeasibleInaccurate =>
      exact ih ((low + high) / 2) high bT bX heps (by rw [hsucc] at hw; linarith)

/-- C4: for every qcp solve whose bisection loop exceeds the iteration cap
max_iters without converging, the call raises the hard solver error with
message Max iters hit during bisection., an error outcome distinct from
returning a solution with INFEASIBLE status. -/
theorem bisection_max_iters_solver_error (p : Problem) (solver : ℚ → SolverAnswer)
    (low high x0 eps : ℚ) (maxIters seedFuel : Nat)
    (hp : p.is_dqcp = true) (hprobe : solver high = .optimal x0)
    (heps : 0 ≤ eps) (hwide : eps * 2 ^ maxIters < high - low) :
    solveQcp solver p (some low) (some high) eps maxIters seedFuel
      = .error (.solverError maxItersMsg)
    ∧ ∀ s : Solution,
        solveQcp solver p (some low) (some high) eps maxIters seedFuel ≠ .ok s := by
  have hloop := bisectLoop_iter_exceeded solver eps maxIters low high high x0 heps hwide
  have hb : bisect solver (some low) (some high) eps maxIters seedFuel
      = .error ⟨maxItersMsg⟩ := by
    simp [bisect, hprobe, hloop]
  constructor
  · simp [solveQcp, hp, hb, Except.mapError]
  · intro s
    simp [solveQcp, hp, hb, Except.mapError]

/-- Witness for C4 at a concrete input: the DQCP ceiling problem with an
always-feasible solver, zero tolerance and a zero iteration cap over the
interval from 0 to 1. -/
theorem bisection_max_iters_solver_error_witness :
    solveQcp (fun _ => .optimal 0) ceilProblem (some 0) (some 1) 0 0 0
      = .error (.solverError maxItersMsg)
    ∧ ∀ s : Solution,
        solveQcp (fun _ => .optimal 0) ceilProblem (some 0) (some 1) 0 0 0 ≠ .ok s :=
  bisection_max_iters_solver_error ceilProblem (fun _ => .optimal 0) 0 1 0 0 0 0
    (by decide) rfl le_rfl (by norm_num)

/-- Helper: upward interval seeding finds nothing when the solver never
reports a feasible point. -/
theorem seedHigh_none_of_infeasible (solver : ℚ → SolverAnswer)
    (h : ∀ t, (solver t).isFeasible = false) :
    ∀ (n : Nat) (h0 : ℚ), seedHigh solver n h0 = none := by
  intro n
  induction n with
  | zero => intro h0; rfl
  | succ n ih => intro h0; simp [seedHigh, h h0, ih]

/-- C5: for every DQCP-compliant problem that the external solver proves
semantically infeasible, the qcp solve returns normally with status
INFEASIBLE or INFEASIBLE_INACCURATE propagated from the solver; semantic
infeasibility is never raised as an exception. -/
theorem infeasible_propagated_as_status (p : Problem) (solver : ℚ → SolverAnswer)
    (low high : Option ℚ) (eps : ℚ) (maxIters seedFuel : Nat)
    (hp : p.is_dqcp = true)
    (hinf : ∀ t, solver t = .infeasible ∨ solver t = .infeasibleInaccurate) :
    ∃ s : Solution, solveQcp solver p low high eps maxIters seedFuel = .ok s
      ∧ (s.status = .infeasible ∨ s.status = .infeasibleInaccurate) := by
  have hfeas : ∀ t, (solver t).isFeasible = false := by
    intro t
    rcases hinf t with h | h <;> simp [h, SolverAnswer.isFeasible]
  cases high with
  | some h =>
    rcases hinf h with hh | hh
    · refine ⟨⟨.infeasible, none, none⟩, ?_, Or.inl rfl⟩
      simp [solveQcp, hp, bisect, hh, Except.mapError]
    · refine ⟨⟨.infeasibleInaccurate, none, none⟩, ?_, Or.inr rfl⟩
      simp [solveQcp, hp, bisect, hh, Except.mapError]
  | none =>
    refine ⟨⟨.infeasible, none, none⟩, ?_, Or.inl rfl⟩
    simp [solveQcp, hp, bisect, seedHigh_none_of_infeasible solver hfeas, Except.mapError]

/-- Witness for C5 at a concrete input: the DQCP ceiling problem against a
solver that always reports exact infeasibility, with and without caller
bounds. -/
theorem infeasible_propagated_as_status_witness :
    (∃ s : Solution, solveQcp (fun _ => .infeasible) ceilProblem none none 1 5 5 = .ok s
      ∧ (s.status = .infeasible ∨ s.status = .infeasibleInaccurate)) :=
  infeasible_propagated_as_status ceilProblem (fun _ => .infeasible) none none 1 5 5
    (by decide) (fun _ => Or.inl rfl)

/-- Helper: the feasibility oracle of the canonicalized ceiling problem is
exactly nonemptiness of its feasible region at threshold t, namely the set of
x with 12 ≤ x ≤ 17 and x ≤ floor(t). -/
theorem ceilFeasible_iff_region_nonempty (t : ℚ) :
    ceilFeasible t = true ↔ ∃ x : ℚ, 12 ≤ x ∧ x ≤ 17 ∧ x ≤ (t.floor : ℚ) := by
  constructor
  · intro h
    refine ⟨12, le_rfl, by norm_num, ?_⟩
    show (12:ℚ) ≤ (t.floor : ℚ)
    exact_mod_cast of_decide_eq_true h
  · rintro ⟨x, hx1, _, hx3⟩
    have h2 : (12:ℚ) ≤ (t.floor : ℚ) := le_trans hx1 hx3
    exact decide_eq_true (by exact_mod_cast h2)

/-- Helper: an optimal answer of the ceiling-problem solver certifies
feasibility of the threshold and identifies the returned point. -/
theorem ceilSolver_optimal {sel : ℚ → ℚ} {t bX : ℚ}
    (h : ceilSolver sel t = .optimal bX) :
    ceilFeasible t = true ∧ sel t = bX := by
  by_cases hf : ceilFeasible t = true
  · refine ⟨hf, ?_⟩
    simpa [ceilSolver, hf] using h
  · simp [ceilSolver, hf] at h

/-- Helper: a feasible threshold of the ceiling problem is at least 12. -/
theorem twelve_le_of_ceilFeasible {t : ℚ} (h : ceilFeasible t = true) : (12:ℚ) ≤ t := by
  have h2 : (12:ℤ) ≤ t.floor := of_decide_eq_true h
  have h3 := Rat.le_floor.mp h2
  exact_mod_cast h3

/-- Helper: an infeasible threshold of the ceiling problem is below 12. -/
theorem lt_twelve_of_not_ceilFeasible {t : ℚ} (h : ceilFeasible t = false) : t < 12 := by
  have h2 : ¬ ((12:ℤ) ≤ t.floor) := by simpa [ceilFeasible] using h
  by_contra hc
  push_neg at hc
  exact h2 (Rat.le_floor.mpr (by exact_mod_cast hc))

/-- Helper: the floor of a rational in the interval from 12 up to but not
including 13 is 12. -/
theorem rat_floor_eq_twelve {t : ℚ} (h1 : 12 ≤ t) (h2 : t < 13) : t.floor = 12 := by
  have ha : (12:ℤ) ≤ t.floor := Rat.le_floor.mpr (by exact_mod_cast h1)
  have hb : ¬ ((13:ℤ) ≤ t.floor) := by
    intro hc
    have h3 := Rat.le_floor.mp hc
    push_cast at h3
    linarith
  omega

/-- Helper: when the accepted threshold lies in the interval from 12 up to but
not including 13, the solver is forced to return the point 12, the unique
feasible point of the canonicalized ceiling problem there. -/
theorem sel_forced_twelve {sel : ℚ → ℚ} (hsel : selSpec sel) {t : ℚ}
    (hf : ceilFeasible t = true) (h1 : 12 ≤ t) (h2 : t < 13) : sel t = 12 := by
  obtain ⟨hs1, _, hs3⟩ := hsel t hf
  rw [rat_floor_eq_twelve h1 h2] at hs3
  have h4 : sel t ≤ 12 := by exact_mod_cast hs3
  linarith

/-- Helper: loop invariant of the bisection on the canonicalized ceiling
problem.  With the optimum 12 bracketed by the interval, the stored best
threshold equal to the upper bound and certified feasible, the loop converges
within the fuel bound to a threshold within the tolerance above 12, and the
stored primal point is exactly 12. -/
theorem ceil_bisect_loop (sel : ℚ → ℚ) (hsel : selSpec sel) (eps : ℚ)
    (heps1 : eps < 1) :
    ∀ (n : Nat) (low high bX : ℚ), low ≤ 12 → 12 ≤ high →
      ceilSolver sel high = .optimal bX →
      high - low ≤ eps * 2 ^ n →
      ∃ tv xv, bisectLoop (ceilSolver sel) eps n low high high bX
          = .ok ⟨.optimal, some tv, some xv⟩
        ∧ 12 ≤ tv ∧ tv ≤ 12 + eps ∧ xv = 12 := by
  intro n
  induction n with
  | zero =>
    intro low high bX hl hh hsolve hw
    simp only [pow_zero, mul_one] at hw
    obtain ⟨hf, hx⟩ := ceilSolver_optimal hsolve
    have h13 : high < 13 := by linarith
    refine ⟨high, bX, ?_, hh, by linarith, ?_⟩
    · simp only [bisectLoop, if_pos hw]
    · rw [← hx]
      exact sel_forced_twelve hsel hf hh h13
  | succ n ih =>
    intro low high bX hl hh hsolve hw
    by_cases hconv : high - low ≤ eps
    · obtain ⟨hf, hx⟩ := ceilSolver_optimal hsolve
      have h13 : high < 13 := by linarith
      refine ⟨high, bX, ?_, hh, by linarith, ?_⟩
      · simp only [bisectLoop, if_pos hconv]
      · rw [← hx]
        exact sel_forced_twelve hsel hf hh h13
    · have hsucc : eps * 2 ^ (n + 1) = eps * 2 ^ n * 2 := by ring
      cases hfm : ceilFeasible ((low + high) / 2) with
      | true =>
        have hsm : ceilSolver sel ((low + high) / 2) = .optimal (sel ((low + high) / 2)) := by
          simp [ceilSolver, hfm]
        have h12m : (12:ℚ) ≤ (low + high) / 2 := twelve_le_of_ceilFeasible hfm
        have hwid : (low + high) / 2 - low ≤ eps * 2 ^ n := by
          rw [hsucc] at hw
          linarith
        obtain ⟨tv, xv, heq, ht1, ht2, hx⟩ :=
          ih low ((low + high) / 2) (sel ((low + high) / 2)) hl h12m hsm hwid
        refine ⟨tv, xv, ?_, ht1, ht2, hx⟩
        simp only [bisectLoop, if_neg hconv, hsm]
        exact heq
      | false =>
        have hsm : ceilSolver sel ((low + high) / 2) = .infeasible := by
          simp [ceilSolver, hfm]
        have hm12 : (low + high) / 2 ≤ 12 := le_of_lt (lt_twelve_of_not_ceilFeasible hfm)
        have hwid : high - (low + high) / 2 ≤ eps * 2 ^ n := by
          rw [hsucc] at hw
          linarith
        obtain ⟨tv, xv, heq, ht1, ht2, hx⟩ := ih ((low + high) / 2) high bX hm12 hh hsolve hwid
        refine ⟨tv, xv, ?_, ht1, ht2, hx⟩
        simp only [bisectLoop, if_neg hconv, hsm]
        exact heq

/-- Helper: upward seeding for the ceiling problem doubles from 1 and stops at
the first feasible value, 16. -/
theorem ceil_seedHigh (sel : ℚ → ℚ) : seedHigh (ceilSolver sel) 50 1 = some 16 := by
  have e1 : ceilFeasible 1 = false := by decide
  have e2 : ceilFeasible 2 = false := by decide
  have e4 : ceilFeasible 4 = false := by decide
  have e8 : ceilFeasible 8 = false := by decide
  have e16 : ceilFeasible 16 = true := by decide
  norm_num [seedHigh, ceilSolver, SolverAnswer.isFeasible, e1, e2, e4, e8, e16]

/-- Helper: downward seeding for the ceiling problem stops immediately at the
infeasible seed -1. -/
theorem ceil_seedLow (sel : ℚ → ℚ) : seedLow (ceilSolver sel) 50 (-1) = some (-1) := by
  have em : ceilFeasible (-1) = false := by decide
  norm_num [seedLow, ceilSolver, SolverAnswer.isFeasible, em]

/-- C8: solving minimize ceil(x) subject to 12 ≤ x ≤ 17 through the qcp
pipeline converges to an objective value within the tolerance above 12 with
the primal point exactly 12, and the result is the same whether the bisection
bounds low and high are both supplied, both omitted, only one supplied, or a
wider interval is supplied; omitted bounds trigger automatic interval
seeding.  The statement quantifies over every admissible external-solver
selection function for the canonicalized problem. -/
theorem ceil_problem_qcp_solve_converges_to_twelve (sel : ℚ → ℚ) (hsel : selSpec sel) :
    (∃ tv xv, solveQcp (ceilSolver sel) ceilProblem (some 12) (some 17) (1/1000000) 100 50
        = .ok ⟨.optimal, some tv, some xv⟩
      ∧ 12 ≤ tv ∧ tv ≤ 12 + 1/1000000 ∧ xv = 12)
    ∧ (∃ tv xv, solveQcp (ceilSolver sel) ceilProblem none none (1/1000000) 100 50
        = .ok ⟨.optimal, some tv, some xv⟩
      ∧ 12 ≤ tv ∧ tv ≤ 12 + 1/1000000 ∧ xv = 12)
    ∧ (∃ tv xv, solveQcp (ceilSolver sel) ceilProblem (some 12) none (1/1000000) 100 50
        = .ok ⟨.optimal, some tv, some xv⟩
      ∧ 12 ≤ tv ∧ tv ≤ 12 + 1/1000000 ∧ xv = 12)
    ∧ (∃ tv xv, solveQcp (ceilSolver sel) ceilProblem none (some 17) (1/1000000) 100 50
        = .ok ⟨.optimal, some tv, some xv⟩
      ∧ 12 ≤ tv ∧ tv ≤ 12 + 1/1000000 ∧ xv = 12)
    ∧ (∃ tv xv, solveQcp (ceilSolver sel) ceilProblem (some 0) (some 100) (1/1000000) 100 50
        = .ok ⟨.optimal, some tv, some xv⟩
      ∧ 12 ≤ tv ∧ tv ≤ 12 + 1/1000000 ∧ xv = 12) := by
  have hdq : ceilProblem.is_dqcp = true := by decide
  have heps1 : (1/1000000 : ℚ) < 1 := by norm_num
  have p16 : ceilSolver sel 16 = .optimal (sel 16) := by
    simp [ceilSolver, (by decide : ceilFeasible 16 = true)]
  have p17 : ceilSolver sel 17 = .optimal (sel 17) := by
    simp [ceilSolver, (by decide : ceilFeasible 17 = true)]
  have p100 : ceilSolver sel 100 = .optimal (sel 100) := by
    simp [ceilSolver, (by decide : ceilFeasible 100 = true)]
  refine ⟨?_, ?_, ?_, ?_, ?_⟩
  · obtain ⟨tv, xv, heq, ht1, ht2, hx⟩ :=
      ceil_bisect_loop sel hsel (1/1000000) heps1 100 12 17 (sel 17)
        (by norm_num) (by norm_num) p17 (by norm_num)
    refine ⟨tv, xv, ?_, ht1, ht2, hx⟩
    simp only [solveQcp, hdq, if_pos, bisect, p17]
    rw [heq]
    rfl
  · obtain ⟨tv, xv, heq, ht1, ht2, hx⟩ :=
      ceil_bisect_loop sel hsel (1/1000000) heps1 100 (-1) 16 (sel 16)
        (by norm_num) (by norm_num) p16 (by norm_num)
    refine ⟨tv, xv, ?_, ht1, ht2, hx⟩
    simp only [solveQcp, hdq, if_pos, bisect, ceil_seedHigh sel, ceil_seedLow sel, p16]
    rw [heq]
    rfl
  · obtain ⟨tv, xv, heq, ht1, ht2, hx⟩ :=
      ceil_bisect_loop sel hsel (1/1000000) heps1 100 12 16 (sel 16)
        (by norm_num) (by norm_num) p16 (by norm_num)
    refine ⟨tv, xv, ?_, ht1, ht2, hx⟩
    simp only [solveQcp, hdq, if_pos, bisect, ceil_seedHigh sel, p16]
    rw [heq]
    rfl
  · obtain ⟨tv, xv, heq, ht1, ht2, hx⟩ :=
      ceil_bisect_loop sel hsel (1/1000000) heps1 100 (-1) 17 (sel 17)
        (by norm_num) (by norm_num) p17 (by norm_num)
    refine ⟨tv, xv, ?_, ht1, ht2, hx⟩
    simp only [solveQcp, hdq, if_pos, bisect, ceil_seedLow sel, p17]
    rw [heq]
    rfl
  · obtain ⟨tv, xv, heq, ht1, ht2, hx⟩ :=
      ceil_bisect_loop sel hsel (1/1000000) heps1 100 0 100 (sel 100)
        (by norm_num) (by norm_num) p100 (by norm_num)
    refine ⟨tv, xv, ?_, ht1, ht2, hx⟩
    simp only [solveQcp, hdq, if_pos, bisect, p100]
    rw [heq]
    rfl

/-- Witness for C8 at a concrete input: the selection function that always
returns the point 12, which satisfies the admissibility specification. -/
theorem ceil_problem_qcp_solve_converges_to_twelve_witness :
    (∃ tv xv, solveQcp (ceilSolver (fun _ => 12)) ceilProblem (some 12) (some 17)
          (1/1000000) 100 50
        = .ok ⟨.optimal, some tv, some xv⟩
      ∧ 12 ≤ tv ∧ tv ≤ 12 + 1/1000000 ∧ xv = 12)
    ∧ (∃ tv xv, solveQcp (ceilSolver (fun _ => 12)) ceilProblem none none
          (1/1000000) 100 50
        = .ok ⟨.optimal, some tv, some xv⟩
      ∧ 12 ≤ tv ∧ tv ≤ 12 + 1/1000000 ∧ xv = 12)
    ∧ (∃ tv xv, solveQcp (ceilSolver (fun _ => 12)) ceilProblem (some 12) none
          (1/1000000) 100 50
        = .ok ⟨.optimal, some tv, some xv⟩
      ∧ 12 ≤ tv ∧ tv ≤ 12 + 1/1000000 ∧ xv = 12)
    ∧ (∃ tv xv, solveQcp (ceilSolver (fun _ => 12)) ceilProblem none (some 17)
          (1/1000000) 100 50
        = .ok ⟨.optimal, some tv, some xv⟩
      ∧ 12 ≤ tv ∧ tv ≤ 12 + 1/1000000 ∧ xv = 12)
    ∧ (∃ tv xv, solveQcp (ceilSolver (fun _ => 12)) ceilProblem (some 0) (some 100)
          (1/1000000) 100 50
        = .ok ⟨.optimal, some tv, some xv⟩
      ∧ 12 ≤ tv ∧ tv ≤ 12 + 1/1000000 ∧ xv = 12) := by
  refine ceil_problem_qcp_solve_converges_to_twelve (fun _ => 12) ?_
  intro t ht
  refine ⟨le_rfl, by norm_num, ?_⟩
  show (12:ℚ) ≤ (t.floor : ℚ)
  have h2 : (12:ℤ) ≤ t.floor := of_decide_eq_true ht
  exact_mod_cast h2

end CvxpyDqcp
